import Mathlib

/-!
# Verification of `BibleVersionCodesConverter.py`

Shallow embedding of the load / validate / reindex pipeline of
`src/Python/BibleVersionCodesConverter.py` together with proofs about the
claims of the specification.

Modelling conventions:
* A Python value that is either `None` or a `str` is `PyStr := Option String`.
* An `xml.etree.ElementTree` element is `XElem` (tag, attributes, text, tail,
  children).  `element.find(t)` is `findElem`, which returns the first child
  with the given tag.
* Python dictionaries are insertion-ordered association lists with unique
  keys; `d[k] = v` is `dictSet` (update in place when the key exists, append
  otherwise), `defaultdict(list)` appending is `ddAppend`.
* A raised exception (`AttributeError` from `None.text`, failed `assert`,
  `TypeError` from `sorted`) is `Except.error` with a describing message.
* A `logging.error/warning/info` call is a `Diag` value accumulated in a list.
-/

/-- A Python value that is `None` or a string. -/
abbrev PyStr := Option String

/-- Python truthiness of a `None`-or-string value (`if value:`). -/
def truthy : PyStr → Bool
  | none => false
  | some s => !(s == "")

/-- Truthiness of `x is not None and x.strip()` used for tail/text checks. -/
def truthyTrim : PyStr → Bool
  | none => false
  | some s => !(s.trim == "")

/-- An `xml.etree.ElementTree` element: tag, attributes (name/value pairs in
document order), text, tail, and child elements. -/
inductive XElem : Type where
  | mk (tag : String) (attrs : List (String × String)) (text : Option String)
       (tail : Option String) (children : List XElem)

def XElem.tag : XElem → String
  | .mk t _ _ _ _ => t

def XElem.attrs : XElem → List (String × String)
  | .mk _ a _ _ _ => a

def XElem.text : XElem → Option String
  | .mk _ _ t _ _ => t

def XElem.tail : XElem → Option String
  | .mk _ _ _ t _ => t

def XElem.children : XElem → List XElem
  | .mk _ _ _ _ c => c

/-- `element.find(tag)`: the first child element carrying the tag. -/
def findElem (e : XElem) (t : String) : Option XElem :=
  e.children.find? (fun c => c.tag == t)

/-- A Python `dict` used as a record: ordered field-name/value pairs. -/
abbrev Record := List (String × PyStr)

/-- Reading a field out of a record dict. -/
def recGet (r : Record) (k : String) : Option PyStr :=
  (r.find? (fun p => p.1 == k)).map (fun p => p.2)

section Dict

variable {κ : Type} {α : Type} [DecidableEq κ]

/-- `k in d` for a Python dict modelled as an association list. -/
def dictMem (d : List (κ × α)) (k : κ) : Bool :=
  match d with
  | [] => false
  | p :: rest => p.1 = k || dictMem rest k

/-- `d.get(k)`: value stored under the first occurrence of the key. -/
def dictGet? (d : List (κ × α)) (k : κ) : Option α :=
  match d with
  | [] => none
  | p :: rest => if p.1 = k then some p.2 else dictGet? rest k

/-- `d[k] = v`: update in place when the key exists, append otherwise
(Python dict insertion-order semantics). -/
def dictSet (d : List (κ × α)) (k : κ) (v : α) : List (κ × α) :=
  if dictMem d k then d.map (fun p => if p.1 = k then (k, v) else p)
  else d ++ [(k, v)]

/-- `defaultdict(list)`: `d[k].append(v)` — extend the bucket in place when
the key exists, create a singleton bucket otherwise. -/
def ddAppend (d : List (κ × List α)) (k : κ) (v : α) : List (κ × List α) :=
  if dictMem d k then d.map (fun p => if p.1 = k then (p.1, p.2 ++ [v]) else p)
  else d ++ [(k, [v])]

/-- Reading a bucket of a `defaultdict(list)` (missing key reads as `[]`). -/
def bucket (d : List (κ × List α)) (k : κ) : List α :=
  (dictGet? d k).getD []

end Dict

/-- One diagnostic emitted through `logging` while loading/validating. -/
inductive Diag : Type where
  /-- `checkXMLNoText`: stray inline text on an element. -/
  | unexpectedText (context : String)
  /-- `checkXMLNoTail`: stray tail text on an element. -/
  | unexpectedTail (context : String)
  /-- `checkXMLNoAttributes`: an attribute on an element that allows none. -/
  | unexpectedAttribute (context : String) (name : String)
  /-- `checkXMLNoSubelements`: a child on an element that allows none. -/
  | unexpectedSubelement (context : String) (tag : String)
  /-- `__load`: top-level tag differs from the expected catalogue tag. -/
  | treeTagMismatch (expected got : String)
  /-- `__load`: first child of the tree is not a `header` element. -/
  | missingHeader
  /-- `__load`: header block contains more than one child. -/
  | unexpectedHeaderElements
  /-- `__load`: header block has no `work` child (absent or mis-tagged). -/
  | missingWorkElement
  /-- `__load`: stray tail data after the header element. -/
  | headerTailData
  /-- `__validate`: additional attribute on a record element. -/
  | additionalAttribute (name : String) (tag : String) (recNo : Nat)
  /-- `__validate` FieldError: a compulsory element is missing. -/
  | compulsoryMissing (elementName : String) (id : PyStr) (recNo : Nat)
  /-- `__validate` FieldWarning: a compulsory element is blank. -/
  | compulsoryBlank (elementName : String) (id : PyStr) (recNo : Nat)
  /-- `__validate` FieldWarning: an optional element is blank. -/
  | optionalBlank (elementName : String) (id : PyStr) (recNo : Nat)
  /-- `__validate`: an element not declared compulsory or optional. -/
  | additionalElement (tag : String) (id : PyStr) (recNo : Nat)
  /-- `__validate` UniquenessViolation: value repeated in a unique field. -/
  | uniquenessViolation (value : PyStr) (elementName : String) (id : PyStr) (recNo : Nat)
  /-- `__validate`: a record element with an unexpected tag. -/
  | unexpectedElement (tag : String) (recNo : Nat)
  /-- `__validate`: stray tail data after a record element. -/
  | recordTailData (tag : String) (recNo : Nat)
  /-- `__validate`: stray tail data after the whole tree. -/
  | treeTailData (tag : String)
  /-- `loadAndValidate`: already loaded, different filepath ignored. -/
  | alreadyLoaded
deriving DecidableEq, Repr

/-- Modelled from the spec: `BibleOrgSysGlobals.checkXMLNoText` (the helper
module is not part of this repository) — "confirm it carries no disallowed
inline text": warn when the element has non-blank text. -/
def checkXMLNoText (e : XElem) (context : String) : List Diag :=
  if truthyTrim e.text then [Diag.unexpectedText context] else []

/-- Modelled from the spec: `BibleOrgSysGlobals.checkXMLNoTail` — warn when
the element has non-blank trailing text. -/
def checkXMLNoTail (e : XElem) (context : String) : List Diag :=
  if truthyTrim e.tail then [Diag.unexpectedTail context] else []

/-- Modelled from the spec: `BibleOrgSysGlobals.checkXMLNoAttributes` — warn
once per attribute carried by an element expected to have none. -/
def checkXMLNoAttributes (e : XElem) (context : String) : List Diag :=
  e.attrs.map (fun a => Diag.unexpectedAttribute context a.1)

/-- Modelled from the spec: `BibleOrgSysGlobals.checkXMLNoSubelements` — warn
once per child of an element expected to be a leaf. -/
def checkXMLNoSubelements (e : XElem) (context : String) : List Diag :=
  e.children.map (fun c => Diag.unexpectedSubelement context c.tag)

/-! ## The loader (`BibleVersionCodesConverter.__load`) -/

/-- The header metadata fields of the converter together with the tree kept in
`self._XMLTree` after the header has been removed.  The three string fields
are initialised to `''` by `__init__` and only overwritten when a complete
`work` block is found. -/
structure LoadOut : Type where
  tree : XElem
  titleString : PyStr
  version : PyStr
  dateString : PyStr

/-- `__load` after the external XML parse: checks the top-level tag, removes
and mines the header.  A failed `assert` or an `AttributeError` from
`None.text` is `Except.error`; every `logging` call is a `Diag`.
The initial `assert self._XMLTree` fails when the parsed root element has no
children (a childless `Element` is falsy). -/
def load (doc : XElem) : Except String (LoadOut × List Diag) :=
  match doc.children with
  | [] => .error "AssertionError: assert self version codes tree"
  | header :: rest =>
    if doc.tag == "BibleVersionCodes" then
      -- if header.tail is not None and header.tail.strip(): logging.error(...)
      let tailDiags := if truthyTrim header.tail then [Diag.headerTailData] else []
      if header.tag == "header" then
        let tree' : XElem := .mk doc.tag doc.attrs doc.text doc.tail rest
        let d0 := checkXMLNoText header "header" ++ checkXMLNoTail header "header"
                  ++ checkXMLNoAttributes header "header"
        if header.children.length > 1 then
          .ok (⟨tree', some "", some "", some ""⟩,
               d0 ++ [Diag.unexpectedHeaderElements] ++ tailDiags)
        else
          match header.children with
          | [] => .ok (⟨tree', some "", some "", some ""⟩,
                       d0 ++ [Diag.missingWorkElement] ++ tailDiags)
          | work :: _ =>
            let d1 := d0 ++ checkXMLNoText work "work in header"
                      ++ checkXMLNoTail work "work in header"
                      ++ checkXMLNoAttributes work "work in header"
            if work.tag == "work" then
              match findElem work "version" with
              | none => .error "AttributeError: NoneType has no attribute text (version)"
              | some vEl =>
                match findElem work "date" with
                | none => .error "AttributeError: NoneType has no attribute text (date)"
                | some dEl =>
                  match findElem work "title" with
                  | none => .error "AttributeError: NoneType has no attribute text (title)"
                  | some tEl =>
                    .ok (⟨tree', tEl.text, vEl.text, dEl.text⟩, d1 ++ tailDiags)
            else
              .ok (⟨tree', some "", some "", some ""⟩,
                   d1 ++ [Diag.missingWorkElement] ++ tailDiags)
      else
        .ok (⟨doc, some "", some "", some ""⟩, [Diag.missingHeader] ++ tailDiags)
    else
      .ok (⟨doc, some "", some "", some ""⟩,
           [Diag.treeTagMismatch "BibleVersionCodes" doc.tag])

/-! ## The validator (`BibleVersionCodesConverter.__validate`)

The schema constants of `__init__`: no attributes are declared, the
compulsory elements are `mainAbbreviation`, `versionName`, `languageCode`,
the optional elements are `publisherName`, `licence`, `webLink`, and the
unique elements are `mainAbbreviation` and `webLink`. -/

def compulsoryElements : List String := ["mainAbbreviation", "versionName", "languageCode"]

def optionalElements : List String := ["publisherName", "licence", "webLink"]

/-- The `uniqueDict` of `__validate`, restricted to the two declared unique
elements (`_uniqueAttributes` is empty). -/
structure UniqState : Type where
  mainAbbrevs : List PyStr
  webLinks : List PyStr
deriving DecidableEq, Repr

/-- The compulsory-element check of `__validate` for one element name:
error when missing, structural checks plus blank warning when present. -/
def validateCompulsory (id : PyStr) (j : Nat) (e : XElem) (name : String) : List Diag :=
  match findElem e name with
  | none => [Diag.compulsoryMissing name id j]
  | some fe =>
      checkXMLNoTail fe (fe.tag ++ " in " ++ e.tag)
      ++ checkXMLNoAttributes fe (fe.tag ++ " in " ++ e.tag)
      ++ checkXMLNoSubelements fe (fe.tag ++ " in " ++ e.tag)
      ++ (if truthy fe.text then [] else [Diag.compulsoryBlank name id j])

/-- The optional-element check of `__validate` for one element name. -/
def validateOptional (id : PyStr) (j : Nat) (e : XElem) (name : String) : List Diag :=
  match findElem e name with
  | none => []
  | some fe =>
      checkXMLNoTail fe (fe.tag ++ " in " ++ e.tag)
      ++ checkXMLNoAttributes fe (fe.tag ++ " in " ++ e.tag)
      ++ checkXMLNoSubelements fe (fe.tag ++ " in " ++ e.tag)
      ++ (if truthy fe.text then [] else [Diag.optionalBlank name id j])

/-- The uniqueness check of `__validate` for one unique element name: when
the element is present, error if its text was already seen, then record the
text unconditionally. -/
def validateUniqueOne (id : PyStr) (j : Nat) (e : XElem) (name : String)
    (seen : List PyStr) : List Diag × List PyStr :=
  match findElem e name with
  | none => ([], seen)
  | some fe =>
      ((if seen.contains fe.text
        then [Diag.uniquenessViolation fe.text name id j] else []),
       seen ++ [fe.text])

/-- The per-record body of `__validate`.  Note the faithful rendering of the
source's `ID = element.find("referenceAbbreviation").text`: the schema of
this converter declares no `referenceAbbreviation` element, so on a record
without one this line raises `AttributeError` (`find` returned `None`). -/
def validateElement (j : Nat) (e : XElem) (u : UniqState) :
    Except String (List Diag × UniqState) :=
  if e.tag == "BibleVersionCodes" then
    let d0 := checkXMLNoText e e.tag ++ checkXMLNoTail e e.tag
              ++ checkXMLNoAttributes e e.tag
    -- the compulsory/optional/unique *attribute* loops iterate empty tuples;
    -- the additional-attribute loop warns on every attribute present
    let d1 := e.attrs.map (fun a => Diag.additionalAttribute a.1 e.tag j)
    match findElem e "referenceAbbreviation" with
    | none => .error "AttributeError: NoneType has no attribute text (referenceAbbreviation)"
    | some idEl =>
      let id := idEl.text
      let d2 := (compulsoryElements.map (validateCompulsory id j e)).flatten
      let d3 := (optionalElements.map (validateOptional id j e)).flatten
      let d4 := e.children.filterMap (fun c =>
        if compulsoryElements.contains c.tag || optionalElements.contains c.tag
        then none else some (Diag.additionalElement c.tag id j))
      let (d5, m') := validateUniqueOne id j e "mainAbbreviation" u.mainAbbrevs
      let (d6, w') := validateUniqueOne id j e "webLink" u.webLinks
      .ok (d0 ++ d1 ++ d2 ++ d3 ++ d4 ++ d5 ++ d6, ⟨m', w'⟩)
  else
    .ok ([Diag.unexpectedElement e.tag j], u)

/-- The record loop of `__validate` (enumerate over the tree's children,
threading the uniqueness state). -/
def validateLoop (j : Nat) (u : UniqState) : List XElem → Except String (List Diag)
  | [] => .ok []
  | e :: rest =>
    match validateElement j e u with
    | .error msg => .error msg
    | .ok (d, u') =>
      let dt := if truthyTrim e.tail then [Diag.recordTailData e.tag j] else []
      match validateLoop (j + 1) u' rest with
      | .error msg => .error msg
      | .ok dr => .ok (d ++ dt ++ dr)

/-- `__validate`: the initial `assert self._XMLTree` (falsy when the tree has
no children), the record loop, and the final tree-tail check. -/
def validate (tree : XElem) : Except String (List Diag) :=
  match tree.children with
  | [] => .error "AssertionError: assert self version codes tree"
  | _ =>
    match validateLoop 0 ⟨[], []⟩ tree.children with
    | .error msg => .error msg
    | .ok d =>
      .ok (d ++ (if truthyTrim tree.tail then [Diag.treeTailData tree.tag] else []))

/-! ## The indexer (`BibleVersionCodesConverter.importDataToPython`) -/

/-- The six field values extracted from one record element at the top of the
`importDataToPython` loop: the three compulsory texts (an `AttributeError`
is raised before this structure is built when the element is missing) and
the three optional texts (`None` when the element is missing). -/
structure FieldVals : Type where
  mainAbbreviation : PyStr
  versionName : PyStr
  languageCode : PyStr
  publisherName : PyStr
  licence : PyStr
  webLink : PyStr
deriving DecidableEq, Repr

/-- `element.find(name).text` for a compulsory element: `AttributeError`
when `find` returns `None`. -/
def reqText (e : XElem) (name : String) : Except String PyStr :=
  match findElem e name with
  | none => .error ("AttributeError: NoneType has no attribute text (" ++ name ++ ")")
  | some c => .ok c.text

/-- `None if element.find(name) is None else element.find(name).text`. -/
def optText (e : XElem) (name : String) : PyStr :=
  match findElem e name with
  | none => none
  | some c => c.text

/-- The field extraction at the top of the `importDataToPython` loop, in
source order (`mainAbbreviation`, `versionName`, `languageCode`, then the
optional elements). -/
def getFields (e : XElem) : Except String FieldVals :=
  match reqText e "mainAbbreviation" with
  | .error msg => .error msg
  | .ok ma =>
    match reqText e "versionName" with
    | .error msg => .error msg
    | .ok vn =>
      match reqText e "languageCode" with
      | .error msg => .error msg
      | .ok lc =>
        .ok ⟨ma, vn, lc, optText e "publisherName", optText e "licence", optText e "webLink"⟩

/-- The optional-field suffix shared by all the entry dict literals: a key is
added exactly when its value is truthy. -/
def optFields (f : FieldVals) (usePublisher useLicence useWebLink : Bool) : Record :=
  (if usePublisher && truthy f.publisherName then [("publisherName", f.publisherName)] else [])
  ++ (if useLicence && truthy f.licence then [("licence", f.licence)] else [])
  ++ (if useWebLink && truthy f.webLink then [("webLink", f.webLink)] else [])

/-- The entry stored in `myAbbrevDict`. -/
def abbrevEntry (f : FieldVals) : Record :=
  [("versionName", f.versionName), ("languageCode", f.languageCode)]
  ++ optFields f true true true

/-- The entry appended to `myNameDict[versionName]`. -/
def nameEntry (f : FieldVals) : Record :=
  [("mainAbbreviation", f.mainAbbreviation), ("languageCode", f.languageCode)]
  ++ optFields f true true true

/-- The entry appended to `myLanguageDict[languageCode]`. -/
def languageEntry (f : FieldVals) : Record :=
  [("mainAbbreviation", f.mainAbbreviation), ("versionName", f.versionName)]
  ++ optFields f true true true

/-- The entry appended to `myPublisherDict[publisherName]`. -/
def publisherEntry (f : FieldVals) : Record :=
  [("mainAbbreviation", f.mainAbbreviation), ("versionName", f.versionName),
   ("languageCode", f.languageCode)]
  ++ optFields f false true true

/-- The entry appended to `myLicenseDict[licence]`. -/
def licenceEntry (f : FieldVals) : Record :=
  [("mainAbbreviation", f.mainAbbreviation), ("versionName", f.versionName),
   ("languageCode", f.languageCode)]
  ++ optFields f true false true

/-- The entry appended to `myWebLinkDict[webLink]`. -/
def webLinkEntry (f : FieldVals) : Record :=
  [("mainAbbreviation", f.mainAbbreviation), ("versionName", f.versionName),
   ("languageCode", f.languageCode)]
  ++ optFields f true true false

/-- The seven derived datasets built by `importDataToPython`
(`self.__DataSets`). -/
structure DataSets : Type where
  abbreviationsList : List PyStr
  abbreviationsDict : List (PyStr × Record)
  namesDict : List (PyStr × List Record)
  languageDict : List (PyStr × List Record)
  publisherDict : List (PyStr × List Record)
  licenceDict : List (PyStr × List Record)
  webLinkDict : List (PyStr × List Record)
deriving DecidableEq, Repr

def emptyDataSets : DataSets := ⟨[], [], [], [], [], [], []⟩

/-- The body of the `importDataToPython` loop for one record whose fields
have been extracted: append to the list, last-write-wins into the
abbreviation dict, and append into each qualifying grouped index. -/
def step (ds : DataSets) (f : FieldVals) : DataSets where
  abbreviationsList := ds.abbreviationsList ++ [f.mainAbbreviation]
  abbreviationsDict := dictSet ds.abbreviationsDict f.mainAbbreviation (abbrevEntry f)
  namesDict := ddAppend ds.namesDict f.versionName (nameEntry f)
  languageDict := ddAppend ds.languageDict f.languageCode (languageEntry f)
  publisherDict := if truthy f.publisherName
                   then ddAppend ds.publisherDict f.publisherName (publisherEntry f)
                   else ds.publisherDict
  licenceDict := if truthy f.licence
                 then ddAppend ds.licenceDict f.licence (licenceEntry f)
                 else ds.licenceDict
  webLinkDict := if truthy f.webLink
                 then ddAppend ds.webLinkDict f.webLink (webLinkEntry f)
                 else ds.webLinkDict

/-- The `for element in self._XMLTree` loop: extract, then accumulate; the
first `AttributeError` aborts the whole import. -/
def importLoop (acc : DataSets) : List XElem → Except String DataSets
  | [] => .ok acc
  | e :: rest =>
    match getFields e with
    | .error msg => .error msg
    | .ok f => importLoop (step acc f) rest

/-- Field extraction alone, for reasoning about a successful loop. -/
def extractAll : List XElem → Except String (List FieldVals)
  | [] => .ok []
  | e :: rest =>
    match getFields e with
    | .error msg => .error msg
    | .ok f =>
      match extractAll rest with
      | .error msg => .error msg
      | .ok fs => .ok (f :: fs)

/-- The ordering Python's `sorted` uses on the abbreviation list: code-point
order on strings.  `None` is placed below every string so the function is
total; Python itself raises `TypeError` on a `None`/`str` comparison, which
`pySortedE` accounts for separately. -/
def pyLE : PyStr → PyStr → Prop
  | none, _ => True
  | some _, none => False
  | some s, some t => s ≤ t

instance (a b : PyStr) : Decidable (pyLE a b) :=
  match a, b with
  | none, _ => isTrue trivial
  | some _, none => isFalse (fun h => h)
  | some s, some t => inferInstanceAs (Decidable (s ≤ t))

instance : IsTotal PyStr pyLE where
  total a b := by
    cases a with
    | none => exact Or.inl trivial
    | some s =>
      cases b with
      | none => exact Or.inr trivial
      | some t => exact le_total s t

instance : IsTrans PyStr pyLE where
  trans a b c hab hbc := by
    cases a with
    | none => exact trivial
    | some s =>
      cases b with
      | none => exact absurd hab (fun h => h)
      | some t =>
        cases c with
        | none => exact absurd hbc (fun h => h)
        | some u => exact le_trans (α := String) hab hbc

/-- `sorted(myAbbrevList)` on comparable values.  All values of a `PyStr`
list that compare equal are identical, so the output of Python's stable sort
coincides with insertion sort with respect to `pyLE`. -/
def pySorted (l : List PyStr) : List PyStr := l.insertionSort pyLE

/-- `sorted(myAbbrevList)` with Python's comparison errors: when the list has
at least two members every member takes part in a comparison, so a `None`
member raises `TypeError` (`'<' not supported between NoneType and str`,
or between two `NoneType`s). -/
def pySortedE (l : List PyStr) : Except String (List PyStr) :=
  if 2 ≤ l.length && l.any (fun x => x.isNone) then
    .error "TypeError: comparison not supported for NoneType"
  else .ok (pySorted l)

/-- The dataset computation of `importDataToPython` over the record elements
of the (header-stripped) tree: the loop, then the final dict literal whose
`AbbreviationsList` member sorts the accumulated list. -/
def computeDataSets (es : List XElem) : Except String DataSets :=
  match importLoop emptyDataSets es with
  | .error msg => .error msg
  | .ok acc =>
    match pySortedE acc.abbreviationsList with
    | .error msg => .error msg
    | .ok sortedList => .ok { acc with abbreviationsList := sortedList }

/-- The nested helper `addToAllCodesDict` of `importDataToPython`.  In the
source, `referenceAbbreviation` is a free name of the enclosing scope that is
never bound there (the helper is dead code, never called); it stands for the
canonical value being registered and is modelled as an explicit parameter.
Returns the updated accumulator and whether the ambiguity warning fired. -/
def addToAllCodesDict (givenUCAbbreviation : PyStr) (referenceAbbreviation : PyStr)
    (initialAllAbbreviationsDict : List (PyStr × PyStr)) :
    List (PyStr × PyStr) × Bool :=
  match dictGet? initialAllAbbreviationsDict givenUCAbbreviation with
  | some v =>
    if v ≠ referenceAbbreviation then
      (dictSet initialAllAbbreviationsDict givenUCAbbreviation (some "MultipleValues"), true)
    else
      (dictSet initialAllAbbreviationsDict givenUCAbbreviation referenceAbbreviation, false)
  | none =>
    (dictSet initialAllAbbreviationsDict givenUCAbbreviation referenceAbbreviation, false)

/-! ## The stateful wrapper (`loadAndValidate` and the import cache) -/

/-- The mutable converter state: `self._XMLTree` (with the header already
removed), the remembered source filepath, the three header strings, and the
`self.__DataSets` import cache (`{}`, i.e. `none`, until the first import). -/
structure ConvState : Type where
  xmlTree : Option XElem
  xmlFileOrFilepath : Option String
  titleString : PyStr
  version : PyStr
  dateString : PyStr
  dataSets : Option DataSets

/-- The freshly-constructed converter. -/
def initialConvState : ConvState := ⟨none, none, some "", some "", some "", none⟩

/-- `loadAndValidate`: on a fresh instance, read and load the supplied (or
default) source and validate when strict checking is on; on an instance that
is already loaded, do nothing and report an error exactly when a different
filepath was supplied.  `reader` is the excluded external XML reader mapping
a filepath to its parsed document. -/
def loadAndValidate (reader : String → XElem) (strictCheckingFlag : Bool)
    (st : ConvState) (xmlFileOrFilepath : Option String) :
    Except String (ConvState × List Diag) :=
  match st.xmlTree with
  | none =>
    let path := xmlFileOrFilepath.getD "../sourceXML/BibleVersionCodes.xml"
    match load (reader path) with
    | .error msg => .error msg
    | .ok (out, diags) =>
      let st' : ConvState :=
        ⟨some out.tree, some path, out.titleString, out.version, out.dateString, st.dataSets⟩
      if strictCheckingFlag then
        match validate out.tree with
        | .error msg => .error msg
        | .ok vdiags => .ok (st', diags ++ vdiags)
      else .ok (st', diags)
  | some _ =>
    .ok (st, if xmlFileOrFilepath.isSome && xmlFileOrFilepath ≠ st.xmlFileOrFilepath
             then [Diag.alreadyLoaded] else [])

/-- `importDataToPython` as a state transformer: the `assert self._XMLTree`
(which also fails on a childless, hence falsy, tree), the
`if self.__DataSets: return` cache check, and the computation plus caching
on the first call. -/
def importDataToPython (st : ConvState) : Except String (DataSets × ConvState) :=
  match st.xmlTree with
  | none => .error "AssertionError: assert self version codes tree"
  | some t =>
    if t.children.isEmpty then .error "AssertionError: assert self version codes tree"
    else
      match st.dataSets with
      | some ds => .ok (ds, st)
      | none =>
        match computeDataSets t.children with
        | .error msg => .error msg
        | .ok ds => .ok (ds, { st with dataSets := some ds })

/-! ## Association-list dictionary lemmas -/

section DictLemmas

variable {κ : Type} {α : Type} [DecidableEq κ]

theorem dictMem_eq_isSome (d : List (κ × α)) (k : κ) :
    dictMem d k = (dictGet? d k).isSome := by
  induction d with
  | nil => rfl
  | cons p rest ih =>
    by_cases h : p.1 = k <;> simp [dictMem, dictGet?, h, ih]

theorem dictMem_iff_mem_keys (d : List (κ × α)) (k : κ) :
    dictMem d k = true ↔ k ∈ d.map Prod.fst := by
  induction d with
  | nil => simp [dictMem]
  | cons p rest ih =>
    by_cases h : p.1 = k
    · simp [dictMem, h]
    · have h' : ¬ k = p.1 := fun he => h he.symm
      simp [dictMem, h, h', ih]

theorem dictGet?_append_single (d : List (κ × α)) (k k' : κ) (v : α) :
    dictGet? (d ++ [(k, v)]) k' =
      match dictGet? d k' with
      | some w => some w
      | none => if k = k' then some v else none := by
  induction d with
  | nil => simp [dictGet?]
  | cons p rest ih =>
    by_cases h : p.1 = k' <;> simp [dictGet?, h, ih]

theorem dictGet?_mapSet (d : List (κ × α)) (k k' : κ) (v : α) :
    dictGet? (d.map (fun p => if p.1 = k then (k, v) else p)) k' =
      if k' = k then (if dictMem d k then some v else none) else dictGet? d k' := by
  induction d with
  | nil => simp [dictGet?, dictMem]
  | cons p rest ih =>
    by_cases hpk : p.1 = k
    · by_cases hk : k' = k
      · subst hk; simp [dictGet?, dictMem, hpk, ih]
      · have hk2 : ¬ k = k' := fun h => hk h.symm
        have hpk' : ¬ p.1 = k' := by rw [hpk]; exact hk2
        simp [dictGet?, dictMem, hpk, hpk', hk, hk2, ih]
    · by_cases hpk' : p.1 = k'
      · have hk : ¬ k' = k := fun h => hpk (hpk'.trans h)
        simp [dictGet?, hpk, hpk', hk]
      · simp [dictGet?, dictMem, hpk, hpk', ih]

theorem dictMem_false_get (d : List (κ × α)) (k : κ)
    (h : dictMem d k = false) : dictGet? d k = none := by
  rw [dictMem_eq_isSome] at h
  exact Option.not_isSome_iff_eq_none.mp (by simp [h])

/-- Last-write-wins lookup law for Python dict assignment. -/
theorem dictGet?_dictSet (d : List (κ × α)) (k k' : κ) (v : α) :
    dictGet? (dictSet d k v) k' = if k' = k then some v else dictGet? d k' := by
  by_cases hmem : dictMem d k = true
  · unfold dictSet
    rw [if_pos hmem, dictGet?_mapSet, hmem]
    simp
  · have hmem' : dictMem d k = false := by simpa using hmem
    unfold dictSet
    rw [if_neg hmem, dictGet?_append_single]
    by_cases hk : k' = k
    · subst hk
      rw [dictMem_false_get d k' hmem']
    · have hk2 : ¬ k = k' := fun h => hk h.symm
      cases hg : dictGet? d k' with
      | some w => simp [hg, hk]
      | none => simp [hg, hk, hk2]

theorem keys_dictSet (d : List (κ × α)) (k : κ) (v : α) :
    (dictSet d k v).map Prod.fst =
      if dictMem d k then d.map Prod.fst else d.map Prod.fst ++ [k] := by
  by_cases hmem : dictMem d k = true
  · unfold dictSet
    rw [if_pos hmem, if_pos hmem, List.map_map]
    apply List.map_congr_left
    intro p _
    by_cases h : p.1 = k <;> simp [h]
  · unfold dictSet
    rw [if_neg hmem, if_neg hmem]
    simp

theorem dictGet?_mapBucket (d : List (κ × List α)) (k k' : κ) (v : α) :
    dictGet? (d.map (fun p => if p.1 = k then (p.1, p.2 ++ [v]) else p)) k' =
      if k' = k then (dictGet? d k).map (fun l => l ++ [v]) else dictGet? d k' := by
  induction d with
  | nil => simp [dictGet?]
  | cons p rest ih =>
    by_cases hpk : p.1 = k
    · by_cases hk : k' = k
      · subst hk; simp [dictGet?, hpk]
      · have hk2 : ¬ k = k' := fun h => hk h.symm
        have hpk' : ¬ p.1 = k' := by rw [hpk]; exact hk2
        simp [dictGet?, hpk, hpk', hk, hk2, ih]
    · by_cases hpk' : p.1 = k'
      · have hk : ¬ k' = k := fun h => hpk (hpk'.trans h)
        simp [dictGet?, hpk, hpk', hk]
      · simp [dictGet?, hpk, hpk', ih]

/-- Grouped-index law: appending through `defaultdict(list)` extends exactly
the addressed bucket and leaves every other bucket unchanged. -/
theorem bucket_ddAppend (d : List (κ × List α)) (k k' : κ) (v : α) :
    bucket (ddAppend d k v) k' =
      if k' = k then bucket d k' ++ [v] else bucket d k' := by
  by_cases hmem : dictMem d k = true
  · unfold ddAppend bucket
    rw [if_pos hmem, dictGet?_mapBucket]
    by_cases hk : k' = k
    · subst hk
      have hsome := (dictMem_eq_isSome d k') ▸ hmem
      cases hg : dictGet? d k' with
      | some l => simp [hg]
      | none => rw [hg] at hsome; simp at hsome
    · simp [hk]
  · have hmem' : dictMem d k = false := by simpa using hmem
    unfold ddAppend bucket
    rw [if_neg hmem, dictGet?_append_single]
    by_cases hk : k' = k
    · subst hk
      rw [dictMem_false_get d k' hmem']
      simp
    · have hk2 : ¬ k = k' := fun h => hk h.symm
      cases hg : dictGet? d k' with
      | some w => simp [hg, hk]
      | none => simp [hg, hk, hk2]

end DictLemmas

/-! ## Fold invariants of the import loop -/

/-- The last member of the list whose key is `k` (the winner under
last-write-wins). -/
def lastWith {α κ : Type} [DecidableEq κ] (key : α → κ) (k : κ) : List α → Option α
  | [] => none
  | f :: rest =>
    match lastWith key k rest with
    | some g => some g
    | none => if key f = k then some f else none

section FoldLemmas

variable {α κ : Type} [DecidableEq κ]

theorem lastWith_eq_none (key : α → κ) (k : κ) (fs : List α)
    (h : k ∉ fs.map key) : lastWith key k fs = none := by
  induction fs with
  | nil => rfl
  | cons f rest ih =>
    simp only [List.map_cons, List.mem_cons, not_or] at h
    have hne : ¬ key f = k := fun he => h.1 he.symm
    simp [lastWith, ih h.2, hne]

/-- In a list with pairwise-distinct keys, the last-write winner for a
member's key is that member itself. -/
theorem lastWith_nodup (key : α → κ) (fs : List α) (f : α)
    (hnd : (fs.map key).Nodup) (hf : f ∈ fs) :
    lastWith key (key f) fs = some f := by
  induction fs with
  | nil => cases hf
  | cons a rest ih =>
    simp only [List.map_cons, List.nodup_cons] at hnd
    cases List.mem_cons.mp hf with
    | inl hfa =>
      subst hfa
      rw [lastWith, lastWith_eq_none key (key f) rest hnd.1]
      simp
    | inr hfr =>
      rw [lastWith, ih hnd.2 hfr]

/-- Lookup law for a fold of last-write-wins dict assignments. -/
theorem dictGet?_foldl_dictSet {β : Type} (key : α → κ) (proj : α → β) :
    ∀ (fs : List α) (d : List (κ × β)) (k : κ),
      dictGet? (fs.foldl (fun d f => dictSet d (key f) (proj f)) d) k =
        match lastWith key k fs with
        | some f => some (proj f)
        | none => dictGet? d k := by
  intro fs
  induction fs with
  | nil => intro d k; rfl
  | cons f rest ih =>
    intro d k
    rw [List.foldl_cons, ih, lastWith]
    cases hl : lastWith key k rest with
    | some g => rfl
    | none =>
      rw [dictGet?_dictSet]
      by_cases hk : key f = k
    
      · simp [hk]
      · have hk2 : ¬ k = key f := fun h => hk h.symm
        simp [hk, hk2]

/-- Bucket law for a fold of guarded `defaultdict` appends: the bucket at `k`
collects, in order, the projection of exactly the qualifying members. -/
theorem bucket_foldl_ddAppend {β : Type} (key : α → κ) (proj : α → β) (g : α → Bool) :
    ∀ (fs : List α) (d : List (κ × List β)) (k : κ),
      bucket (fs.foldl (fun d f => if g f then ddAppend d (key f) (proj f) else d) d) k =
        bucket d k ++ fs.filterMap
          (fun f => if g f = true ∧ key f = k then some (proj f) else none) := by
  intro fs
  induction fs with
  | nil => intro d k; simp
  | cons f rest ih =>
    intro d k
    rw [List.foldl_cons, ih]
    cases hg : g f with
    | false =>
      have : ¬ (g f = true ∧ key f = k) := fun h => by rw [hg] at h; cases h.1
      simp [hg, this]
    | true =>
      by_cases hk : key f = k
      · have hcond : g f = true ∧ key f = k := ⟨hg, hk⟩
        rw [if_pos rfl, bucket_ddAppend, if_pos hk.symm]
        simp [hcond, List.append_assoc]
      · have hcond : ¬ (g f = true ∧ key f = k) := fun h => hk h.2
        have hk2 : ¬ k = key f := fun h => hk h.symm
        rw [if_pos rfl, bucket_ddAppend, if_neg hk2]
        simp [hcond]

/-- Key-set law for a fold of dict assignments: each new key is appended once,
each already-present key leaves the key list unchanged. -/
theorem keys_foldl_dictSet {β : Type} (key : α → κ) (proj : α → β) :
    ∀ (fs : List α) (d : List (κ × β)),
      (fs.foldl (fun d f => dictSet d (key f) (proj f)) d).map Prod.fst =
        (fs.map key).foldl
          (fun ks k => if k ∈ ks then ks else ks ++ [k]) (d.map Prod.fst) := by
  intro fs
  induction fs with
  | nil => intro d; rfl
  | cons f rest ih =>
    intro d
    rw [List.foldl_cons, ih, List.map_cons, List.foldl_cons, keys_dictSet]
    by_cases hmem : dictMem d (key f) = true
    · rw [if_pos hmem, if_pos ((dictMem_iff_mem_keys d (key f)).mp hmem)]
    · have : ¬ key f ∈ d.map Prod.fst := fun h => hmem ((dictMem_iff_mem_keys d (key f)).mpr h)
      rw [if_neg hmem, if_neg this]

/-- Folding "append if new" over a list of pairwise-distinct values appends
them all. -/
theorem foldl_insNew_nodup :
    ∀ (ms ks : List κ), (ks ++ ms).Nodup →
      ms.foldl (fun ks k => if k ∈ ks then ks else ks ++ [k]) ks = ks ++ ms := by
  intro ms
  induction ms with
  | nil => intro ks _; simp
  | cons m rest ih =>
    intro ks hnd
    have hm : m ∉ ks := by
      intro hmem
      exact (List.disjoint_of_nodup_append hnd) hmem (List.mem_cons_self m rest)
    rw [List.foldl_cons, if_neg hm, ih (ks ++ [m]) (by simpa using hnd)]
    simp

end FoldLemmas

/-- Componentwise view of the import loop fold: `abbreviationsList`. -/
theorem foldl_step_abbrevList (fs : List FieldVals) :
    ∀ ds : DataSets, (fs.foldl step ds).abbreviationsList =
      ds.abbreviationsList ++ fs.map (fun f => f.mainAbbreviation) := by
  induction fs with
  | nil => intro ds; simp
  | cons f rest ih => intro ds; simp [step, ih, List.append_assoc]

/-- Componentwise view of the import loop fold: `abbreviationsDict`. -/
theorem foldl_step_abbrevDict (fs : List FieldVals) :
    ∀ ds : DataSets, (fs.foldl step ds).abbreviationsDict =
      fs.foldl (fun d f => dictSet d f.mainAbbreviation (abbrevEntry f)) ds.abbreviationsDict := by
  induction fs with
  | nil => intro ds; rfl
  | cons f rest ih => intro ds; simp [step, ih]

/-- Componentwise view of the import loop fold: `namesDict`. -/
theorem foldl_step_namesDict (fs : List FieldVals) :
    ∀ ds : DataSets, (fs.foldl step ds).namesDict =
      fs.foldl (fun d f => ddAppend d f.versionName (nameEntry f)) ds.namesDict := by
  induction fs with
  | nil => intro ds; rfl
  | cons f rest ih => intro ds; simp [step, ih]

/-- Componentwise view of the import loop fold: `languageDict`. -/
theorem foldl_step_languageDict (fs : List FieldVals) :
    ∀ ds : DataSets, (fs.foldl step ds).languageDict =
      fs.foldl (fun d f => ddAppend d f.languageCode (languageEntry f)) ds.languageDict := by
  induction fs with
  | nil => intro ds; rfl
  | cons f rest ih => intro ds; simp [step, ih]

/-- Componentwise view of the import loop fold: `publisherDict`. -/
theorem foldl_step_publisherDict (fs : List FieldVals) :
    ∀ ds : DataSets, (fs.foldl step ds).publisherDict =
      fs.foldl (fun d f => if truthy f.publisherName
                           then ddAppend d f.publisherName (publisherEntry f) else d)
        ds.publisherDict := by
  induction fs with
  | nil => intro ds; rfl
  | cons f rest ih => intro ds; simp [step, ih]

/-- Componentwise view of the import loop fold: `licenceDict`. -/
theorem foldl_step_licenceDict (fs : List FieldVals) :
    ∀ ds : DataSets, (fs.foldl step ds).licenceDict =
      fs.foldl (fun d f => if truthy f.licence
                           then ddAppend d f.licence (licenceEntry f) else d)
        ds.licenceDict := by
  induction fs with
  | nil => intro ds; rfl
  | cons f rest ih => intro ds; simp [step, ih]

/-- Componentwise view of the import loop fold: `webLinkDict`. -/
theorem foldl_step_webLinkDict (fs : List FieldVals) :
    ∀ ds : DataSets, (fs.foldl step ds).webLinkDict =
      fs.foldl (fun d f => if truthy f.webLink
                           then ddAppend d f.webLink (webLinkEntry f) else d)
        ds.webLinkDict := by
  induction fs with
  | nil => intro ds; rfl
  | cons f rest ih => intro ds; simp [step, ih]

/-- The import loop is extraction followed by a pure fold. -/
theorem importLoop_eq_extract (es : List XElem) :
    ∀ acc : DataSets, importLoop acc es =
      match extractAll es with
      | .error msg => .error msg
      | .ok fs => .ok (fs.foldl step acc) := by
  induction es with
  | nil => intro acc; rfl
  | cons e rest ih =>
    intro acc
    rw [importLoop, extractAll]
    cases hg : getFields e with
    | error msg => rfl
    | ok f =>
      dsimp only
      rw [ih]
      cases he : extractAll rest with
      | error msg => rfl
      | ok fs => rfl

/-- Successful extraction preserves the record count. -/
theorem extractAll_length (es : List XElem) :
    ∀ fs : List FieldVals, extractAll es = .ok fs → fs.length = es.length := by
  induction es with
  | nil => intro fs h; cases h; rfl
  | cons e rest ih =>
    intro fs h
    rw [extractAll] at h
    cases hg : getFields e with
    | error msg => rw [hg] at h; cases h
    | ok f =>
      rw [hg] at h
      cases he : extractAll rest with
      | error msg => rw [he] at h; cases h
      | ok gs =>
        rw [he] at h
        cases h
        simp [ih gs he]

/-- Unguarded variant of `bucket_foldl_ddAppend` for the two grouped indices
that append unconditionally. -/
theorem bucket_foldl_ddAppend_all {α κ β : Type} [DecidableEq κ]
    (key : α → κ) (proj : α → β) :
    ∀ (fs : List α) (d : List (κ × List β)) (k : κ),
      bucket (fs.foldl (fun d f => ddAppend d (key f) (proj f)) d) k =
        bucket d k ++ fs.filterMap
          (fun f => if key f = k then some (proj f) else none) := by
  intro fs
  induction fs with
  | nil => intro d k; simp
  | cons f rest ih =>
    intro d k
    rw [List.foldl_cons, ih]
    by_cases hk : key f = k
    · rw [bucket_ddAppend, if_pos hk.symm]
      simp [hk, List.append_assoc]
    · have hk2 : ¬ k = key f := fun h => hk h.symm
      rw [bucket_ddAppend, if_neg hk2]
      simp [hk]

/-- A successful `computeDataSets` run is the pure fold of `step` over the
extracted fields, with the abbreviation list sorted at the end. -/
theorem computeDataSets_ok (es : List XElem) (fs : List FieldVals) (ds : DataSets)
    (hok : computeDataSets es = .ok ds) (hfs : extractAll es = .ok fs) :
    ds = { fs.foldl step emptyDataSets with
           abbreviationsList := pySorted (fs.map (fun f => f.mainAbbreviation)) } := by
  unfold computeDataSets at hok
  rw [importLoop_eq_extract, hfs] at hok
  dsimp only at hok
  have hlist : (fs.foldl step emptyDataSets).abbreviationsList =
      fs.map (fun f => f.mainAbbreviation) := by
    rw [foldl_step_abbrevList]
    rfl
  rw [hlist] at hok
  unfold pySortedE at hok
  by_cases hcond : (2 ≤ (fs.map (fun f => f.mainAbbreviation)).length
      && (fs.map (fun f => f.mainAbbreviation)).any (fun x => x.isNone)) = true
  · rw [if_pos hcond] at hok
    cases hok
  · rw [if_neg hcond] at hok
    dsimp only at hok
    cases hok
    rfl

theorem recGet_versionName (f : FieldVals) :
    recGet (abbrevEntry f) "versionName" = some f.versionName := by
  simp [recGet, abbrevEntry, List.find?]

/-! ## Concrete sample documents -/

/-- A leaf field element holding only text. -/
def fieldLeaf (tag : String) (text : PyStr) : XElem := .mk tag [] text none []

/-- The KJV record of the spec's concrete scenario. -/
def kjvElem : XElem := .mk "BibleVersionCodes" [] none none
  [fieldLeaf "mainAbbreviation" (some "KJV"),
   fieldLeaf "versionName" (some "King James Version"),
   fieldLeaf "languageCode" (some "en"),
   fieldLeaf "licence" (some "Public Domain")]

/-- The WEB record of the spec's concrete scenario. -/
def webElem : XElem := .mk "BibleVersionCodes" [] none none
  [fieldLeaf "mainAbbreviation" (some "WEB"),
   fieldLeaf "versionName" (some "World English Bible"),
   fieldLeaf "languageCode" (some "en"),
   fieldLeaf "licence" (some "Public Domain")]

/-- The extracted fields of `kjvElem`. -/
def kjvFields : FieldVals :=
  ⟨some "KJV", some "King James Version", some "en", none, some "Public Domain", none⟩

/-- The extracted fields of `webElem`. -/
def webFields : FieldVals :=
  ⟨some "WEB", some "World English Bible", some "en", none, some "Public Domain", none⟩

/-- The datasets computed from the two-record scenario. -/
def sampleDataSets : DataSets :=
  ((computeDataSets [kjvElem, webElem]).toOption).getD emptyDataSets

/-! ## Claim C3 — top-level tag mismatch -/

/-- A document whose top-level tag is not the expected catalogue tag. -/
def wrongTagDoc : XElem := .mk "SomethingElse" [] none none [kjvElem]

/-- **C3 (counterexample).** The claim says a top-level tag mismatch makes the
load fail with a fatal `StructureError` and return no partial catalogue.  On
the code it is false: `__load` only calls `logging.error` and returns
normally, the parsed tree (including all records) is kept, so the load of a
concretely mis-tagged document succeeds with a single error diagnostic. -/
theorem c3_counterexample :
    load wrongTagDoc = .ok (⟨wrongTagDoc, some "", some "", some ""⟩,
      [Diag.treeTagMismatch "BibleVersionCodes" "SomethingElse"]) := rfl

/-- **C3 (amended).** For every source document whose top-level tag differs
from `BibleVersionCodes` (and which has at least one child, so the initial
assertion passes), the load records exactly one tag-mismatch error
diagnostic and returns normally with the tree unchanged and empty header
fields — the mismatch is never fatal. -/
theorem c3_amended_tag_mismatch (tag : String) (attrs : List (String × String))
    (text tail : Option String) (first : XElem) (rest : List XElem)
    (htag : tag ≠ "BibleVersionCodes") :
    load (.mk tag attrs text tail (first :: rest)) =
      .ok (⟨.mk tag attrs text tail (first :: rest), some "", some "", some ""⟩,
           [Diag.treeTagMismatch "BibleVersionCodes" tag]) := by
  have hbeq : (tag == "BibleVersionCodes") = false := beq_eq_false_iff_ne.mpr htag
  simp [load, XElem.tag, XElem.children, hbeq]

/-- Witness for `c3_amended_tag_mismatch` at a concrete mis-tagged document. -/
theorem c3_amended_witness :
    load (.mk "BibleBooksCodes" [] none none [kjvElem]) =
      .ok (⟨.mk "BibleBooksCodes" [] none none [kjvElem], some "", some "", some ""⟩,
           [Diag.treeTagMismatch "BibleVersionCodes" "BibleBooksCodes"]) :=
  c3_amended_tag_mismatch "BibleBooksCodes" [] none none kjvElem [] (by decide)

/-! ## Claim C7 — idempotence of the two pipeline steps -/

/-- **C7.** Both pipeline steps are idempotent.  (1) On a state whose import
cache is filled, `importDataToPython` returns the cached datasets and leaves
the state unchanged (no recomputation: the result is independent of the tree
contents).  (2) On an already-loaded state, `loadAndValidate` is a no-op
returning the state unchanged, and its diagnostics are the single
already-loaded error exactly when a filepath was supplied that differs from
the remembered one — it never reloads or merges. -/
theorem c7_pipeline_idempotent :
    (∀ (st : ConvState) (ds : DataSets) (t : XElem),
        st.xmlTree = some t → t.children.isEmpty = false → st.dataSets = some ds →
        importDataToPython st = .ok (ds, st))
    ∧ (∀ (reader : String → XElem) (strict : Bool) (st : ConvState)
        (t : XElem) (p : Option String), st.xmlTree = some t →
        loadAndValidate reader strict st p =
          .ok (st, if p.isSome && p ≠ st.xmlFileOrFilepath
                   then [Diag.alreadyLoaded] else [])) := by
  constructor
  · intro st ds t h1 h2 h3
    unfold importDataToPython
    rw [h1]
    dsimp only
    rw [h2, h3]
    simp
  · intro reader strict st t p h1
    unfold loadAndValidate
    rw [h1]

/-- The loaded-and-imported state used to witness `c7_pipeline_idempotent`. -/
def loadedConvState : ConvState :=
  ⟨some (.mk "BibleVersionCodes" [] none none [kjvElem, webElem]),
   some "../sourceXML/BibleVersionCodes.xml", some "", some "", some "",
   some sampleDataSets⟩

/-- Witness for `c7_pipeline_idempotent`: a second import returns the cache
unchanged; a repeated load with the same path is silent and with a different
path reports the already-loaded error, leaving the state intact. -/
theorem c7_witness :
    importDataToPython loadedConvState = .ok (sampleDataSets, loadedConvState)
    ∧ loadAndValidate (fun _ => wrongTagDoc) true loadedConvState
        (some "../sourceXML/BibleVersionCodes.xml") = .ok (loadedConvState, [])
    ∧ loadAndValidate (fun _ => wrongTagDoc) true loadedConvState
        (some "other.xml") = .ok (loadedConvState, [Diag.alreadyLoaded]) := by
  refine ⟨?_, ?_, ?_⟩
  · exact c7_pipeline_idempotent.1 loadedConvState sampleDataSets
      (.mk "BibleVersionCodes" [] none none [kjvElem, webElem]) rfl rfl rfl
  · rw [c7_pipeline_idempotent.2 (fun _ => wrongTagDoc) true loadedConvState
      (.mk "BibleVersionCodes" [] none none [kjvElem, webElem])
      (some "../sourceXML/BibleVersionCodes.xml") rfl]
    rfl
  · rw [c7_pipeline_idempotent.2 (fun _ => wrongTagDoc) true loadedConvState
      (.mk "BibleVersionCodes" [] none none [kjvElem, webElem])
      (some "other.xml") rfl]
    rfl

/-! ## Claim C8 — the cross-check accumulator `addToAllCodesDict` -/

/-- Repeated insertion through `addToAllCodesDict` (the value inserted with
each key models the enclosing-scope canonical value at that call). -/
def insertAllCodes (inserts : List (PyStr × PyStr)) (d : List (PyStr × PyStr)) :
    List (PyStr × PyStr) :=
  inserts.foldl (fun d p => (addToAllCodesDict p.1 p.2 d).1) d

/-- One insertion never replaces an `'MultipleValues'` sentinel with anything
but the sentinel again. -/
theorem addToAllCodes_sentinel_step (k' v' : PyStr) (d : List (PyStr × PyStr)) (k : PyStr)
    (h : dictGet? d k = some (some "MultipleValues")) :
    dictGet? (addToAllCodesDict k' v' d).1 k = some (some "MultipleValues") := by
  unfold addToAllCodesDict
  by_cases hk : k = k'
  · subst hk
    rw [h]
    dsimp only
    by_cases hv : (some "MultipleValues" : PyStr) ≠ v'
    · rw [if_pos hv]
      dsimp only
      rw [dictGet?_dictSet, if_pos rfl]
    · rw [if_neg hv]
      push_neg at hv
      dsimp only
      rw [dictGet?_dictSet, if_pos rfl, ← hv]
  · cases hg : dictGet? d k' with
    | none =>
      dsimp only
      rw [dictGet?_dictSet, if_neg hk]
      exact h
    | some v =>
      dsimp only
      by_cases hv : v ≠ v'
      · rw [if_pos hv]
        dsimp only
        rw [dictGet?_dictSet, if_neg hk]
        exact h
      · rw [if_neg hv]
        dsimp only
        rw [dictGet?_dictSet, if_neg hk]
        exact h

/-- **C8.** The cross-check accumulator: an insertion finding the key mapped
to a *different* canonical value overwrites the entry with the
`'MultipleValues'` sentinel and warns; an insertion finding the same value,
or a fresh key, stores the given canonical value silently.  Moreover
ambiguity is never silently undone: once a key holds the sentinel, any
further sequence of insertions leaves the sentinel in place. -/
theorem c8_ambiguous_sentinel :
    (∀ (d : List (PyStr × PyStr)) (k v w : PyStr),
        dictGet? d k = some w → w ≠ v →
        addToAllCodesDict k v d = (dictSet d k (some "MultipleValues"), true))
    ∧ (∀ (d : List (PyStr × PyStr)) (k v : PyStr),
        dictGet? d k = some v →
        addToAllCodesDict k v d = (dictSet d k v, false))
    ∧ (∀ (d : List (PyStr × PyStr)) (k v : PyStr),
        dictGet? d k = none →
        addToAllCodesDict k v d = (dictSet d k v, false))
    ∧ (∀ (inserts : List (PyStr × PyStr)) (d : List (PyStr × PyStr)) (k : PyStr),
        dictGet? d k = some (some "MultipleValues") →
        dictGet? (insertAllCodes inserts d) k = some (some "MultipleValues")) := by
  refine ⟨?_, ?_, ?_, ?_⟩
  · intro d k v w h hne
    unfold addToAllCodesDict
    rw [h]
    dsimp only
    rw [if_pos hne]
  · intro d k v h
    unfold addToAllCodesDict
    rw [h]
    dsimp only
    rw [if_neg (fun hne : v ≠ v => hne rfl)]
  · intro d k v h
    unfold addToAllCodesDict
    rw [h]
  · intro inserts
    induction inserts with
    | nil => intro d k h; exact h
    | cons p rest ih =>
      intro d k h
      exact ih ((addToAllCodesDict p.1 p.2 d).1) k
        (addToAllCodes_sentinel_step p.1 p.2 d k h)

/-- Witness for `c8_ambiguous_sentinel`: a concrete colliding insertion flips
to the sentinel with a warning, and the sentinel survives a later insertion. -/
theorem c8_witness :
    addToAllCodesDict (some "NT") (some "OETB") [(some "NT", some "OETA")]
      = (dictSet [(some "NT", some "OETA")] (some "NT") (some "MultipleValues"), true)
    ∧ dictGet? (insertAllCodes [(some "NT", some "OETC")]
        [(some "NT", some "MultipleValues")]) (some "NT")
      = some (some "MultipleValues") :=
  ⟨c8_ambiguous_sentinel.1 [(some "NT", some "OETA")] (some "NT") (some "OETB")
      (some "OETA") rfl (by decide),
   c8_ambiguous_sentinel.2.2.2 [(some "NT", some "OETC")]
      [(some "NT", some "MultipleValues")] (some "NT") rfl⟩

/-! ## Claim C10 — blank optional fields behave exactly like absent ones -/

/-- **C10.** A present-but-blank optional field (empty-string
`publisherName`, `licence` or `webLink`) is treated by the indexing step
exactly as if the field were absent (`None`): the per-record accumulation is
identical, the field is omitted from every derived record (truthiness, not
element presence, decides inclusion), and the record is omitted from the
bucket of the corresponding secondary index. -/
theorem c10_blank_optional_as_absent (ds : DataSets) (f : FieldVals) :
    (f.publisherName = some "" →
        step ds f = step ds { f with publisherName := none }
        ∧ (step ds f).publisherDict = ds.publisherDict)
    ∧ (f.licence = some "" →
        step ds f = step ds { f with licence := none }
        ∧ (step ds f).licenceDict = ds.licenceDict)
    ∧ (f.webLink = some "" →
        step ds f = step ds { f with webLink := none }
        ∧ (step ds f).webLinkDict = ds.webLinkDict) := by
  refine ⟨fun h => ⟨?_, ?_⟩, fun h => ⟨?_, ?_⟩, fun h => ⟨?_, ?_⟩⟩ <;>
    simp [step, abbrevEntry, nameEntry, languageEntry, publisherEntry, licenceEntry,
          webLinkEntry, optFields, truthy, h]

/-- A record with a present-but-blank `publisherName`. -/
def blankPublisherFields : FieldVals :=
  ⟨some "OEB", some "Open English Bible", some "en", some "", some "CC0", none⟩

/-- Witness for `c10_blank_optional_as_absent` at a concrete record whose
`publisherName` is the empty string. -/
theorem c10_witness :
    step emptyDataSets blankPublisherFields
      = step emptyDataSets { blankPublisherFields with publisherName := none }
    ∧ (step emptyDataSets blankPublisherFields).publisherDict
      = emptyDataSets.publisherDict :=
  (c10_blank_optional_as_absent emptyDataSets blankPublisherFields).1 rfl

/-! ## Claim C4 — the abbreviation list and the length invariants -/

/-- **C4.** For every successfully imported catalogue, `AbbreviationsList` is
exactly the sorted sequence of the `mainAbbreviation` values of all entries
(duplicates retained: the result is a permutation of the raw value sequence,
sorted with respect to the string order), and whenever all
`mainAbbreviation` values are distinct the entry count, the list length and
the `AbbreviationsDict` size coincide. -/
theorem c4_abbreviation_list_and_lengths (es : List XElem) (fs : List FieldVals)
    (ds : DataSets) (hok : computeDataSets es = .ok ds)
    (hfs : extractAll es = .ok fs) :
    ds.abbreviationsList = pySorted (fs.map (fun f => f.mainAbbreviation))
    ∧ List.Sorted pyLE ds.abbreviationsList
    ∧ ds.abbreviationsList.Perm (fs.map (fun f => f.mainAbbreviation))
    ∧ ((fs.map (fun f => f.mainAbbreviation)).Nodup →
        es.length = ds.abbreviationsList.length
        ∧ ds.abbreviationsList.length = ds.abbreviationsDict.length) := by
  have hds := computeDataSets_ok es fs ds hok hfs
  subst hds
  refine ⟨rfl, ?_, ?_, ?_⟩
  · exact List.sorted_insertionSort pyLE _
  · exact List.perm_insertionSort pyLE _
  · intro hnd
    have hlen : (pySorted (fs.map (fun f => f.mainAbbreviation))).length = fs.length := by
      rw [pySorted, List.length_insertionSort, List.length_map]
    constructor
    · rw [← extractAll_length es fs hfs]
      exact hlen.symm
    · have hkeys : ((fs.foldl step emptyDataSets).abbreviationsDict).map Prod.fst
          = fs.map (fun f => f.mainAbbreviation) := by
        rw [foldl_step_abbrevDict, keys_foldl_dictSet]
        have hemp : (emptyDataSets.abbreviationsDict).map Prod.fst = ([] : List PyStr) := rfl
        rw [hemp]
        exact foldl_insNew_nodup (fs.map (fun f => f.mainAbbreviation)) []
          (by simpa using hnd)
      show (pySorted _).length = ((fs.foldl step emptyDataSets).abbreviationsDict).length
      rw [hlen, ← List.length_map ((fs.foldl step emptyDataSets).abbreviationsDict) Prod.fst,
          hkeys, List.length_map]

/-- Witness for `c4_abbreviation_list_and_lengths` on the spec's two-record
scenario (all abbreviations distinct). -/
theorem c4_witness :
    sampleDataSets.abbreviationsList
      = pySorted ([kjvFields, webFields].map (fun f => f.mainAbbreviation))
    ∧ [kjvElem, webElem].length = sampleDataSets.abbreviationsList.length
    ∧ sampleDataSets.abbreviationsList.length
      = sampleDataSets.abbreviationsDict.length := by
  have h := c4_abbreviation_list_and_lengths [kjvElem, webElem] [kjvFields, webFields]
    sampleDataSets rfl rfl
  exact ⟨h.1, (h.2.2.2 (by decide)).1, (h.2.2.2 (by decide)).2⟩

/-! ## Claim C5 — round-trip of entries through `AbbreviationsDict` -/

/-- First duplicate-abbreviation record ("Version A"). -/
def dupElemA : XElem := .mk "BibleVersionCodes" [] none none
  [fieldLeaf "mainAbbreviation" (some "KJV"),
   fieldLeaf "versionName" (some "Version A"),
   fieldLeaf "languageCode" (some "en")]

/-- Second duplicate-abbreviation record ("Version B"). -/
def dupElemB : XElem := .mk "BibleVersionCodes" [] none none
  [fieldLeaf "mainAbbreviation" (some "KJV"),
   fieldLeaf "versionName" (some "Version B"),
   fieldLeaf "languageCode" (some "de")]

/-- The extracted fields of `dupElemA`. -/
def dupFieldsA : FieldVals := ⟨some "KJV", some "Version A", some "en", none, none, none⟩

/-- The extracted fields of `dupElemB`. -/
def dupFieldsB : FieldVals := ⟨some "KJV", some "Version B", some "de", none, none, none⟩

/-- The datasets computed from the duplicate-abbreviation catalogue. -/
def dupDataSets : DataSets :=
  ((computeDataSets [dupElemA, dupElemB]).toOption).getD emptyDataSets

/-- **C5 (counterexample).** The round-trip claim quantifies over *every*
entry of the loaded catalogue, but `AbbreviationsDict` is last-write-wins:
in the concrete catalogue `[dupElemA, dupElemB]` (both keyed `KJV`), entry
`dupElemA` has `versionName` "Version A" while the index at its
`mainAbbreviation` returns "Version B", so the claim as stated is false. -/
theorem c5_counterexample :
    computeDataSets [dupElemA, dupElemB] = .ok dupDataSets
    ∧ getFields dupElemA = .ok dupFieldsA
    ∧ dupFieldsA.versionName = some "Version A"
    ∧ (dictGet? dupDataSets.abbreviationsDict dupFieldsA.mainAbbreviation).map
        (fun r => recGet r "versionName") = some (some (some "Version B"))
    ∧ some (some (some "Version B")) ≠
        (some (some dupFieldsA.versionName) : Option (Option PyStr)) :=
  ⟨rfl, rfl, rfl, rfl, by decide⟩

/-- **C5 (amended).** Provided all `mainAbbreviation` values are distinct,
every entry of the loaded catalogue round-trips through the indexing step:
`AbbreviationsDict` at the entry's `mainAbbreviation` holds exactly that
entry's record, whose `versionName` field is the entry's `versionName`.
(With duplicate keys the dict holds the *last* entry's values, so earlier
duplicates do not round-trip.) -/
theorem c5_amended_round_trip (es : List XElem) (fs : List FieldVals) (ds : DataSets)
    (f : FieldVals) (hok : computeDataSets es = .ok ds)
    (hfs : extractAll es = .ok fs)
    (hnd : (fs.map (fun g => g.mainAbbreviation)).Nodup) (hf : f ∈ fs) :
    dictGet? ds.abbreviationsDict f.mainAbbreviation = some (abbrevEntry f)
    ∧ recGet (abbrevEntry f) "versionName" = some f.versionName := by
  have hds := computeDataSets_ok es fs ds hok hfs
  subst hds
  constructor
  · show dictGet? ((fs.foldl step emptyDataSets).abbreviationsDict) f.mainAbbreviation = _
    rw [foldl_step_abbrevDict,
        dictGet?_foldl_dictSet (fun g : FieldVals => g.mainAbbreviation) abbrevEntry fs
          emptyDataSets.abbreviationsDict f.mainAbbreviation,
        lastWith_nodup (fun g : FieldVals => g.mainAbbreviation) fs f hnd hf]
  · exact recGet_versionName f

/-- Witness for `c5_amended_round_trip`: the KJV entry of the two-record
scenario round-trips. -/
theorem c5_witness :
    dictGet? sampleDataSets.abbreviationsDict kjvFields.mainAbbreviation
      = some (abbrevEntry kjvFields)
    ∧ recGet (abbrevEntry kjvFields) "versionName" = some kjvFields.versionName :=
  c5_amended_round_trip [kjvElem, webElem] [kjvFields, webFields] sampleDataSets
    kjvFields rfl rfl (by decide) (by decide)

/-! ## Claim C6 — grouped indices keep every qualifying entry -/

/-- **C6.** Each of the five grouped secondary indices is complete: for every
key `k`, the bucket at `k` is exactly the in-order sequence of the
projected records of the entries qualifying for `k` (every entry of
`versionName`/`languageCode` unconditionally; entries with a truthy
`publisherName`/`licence`/`webLink` for the three optional-field indices).
Hence each qualifying entry appears in its bucket exactly once, buckets are
appended to rather than overwritten, and a key is never dropped because of
duplication — even when several entries share `k`. -/
theorem c6_grouped_indices_complete (es : List XElem) (fs : List FieldVals)
    (ds : DataSets) (hok : computeDataSets es = .ok ds)
    (hfs : extractAll es = .ok fs) :
    ∀ k : PyStr,
      bucket ds.namesDict k =
        fs.filterMap (fun f => if f.versionName = k then some (nameEntry f) else none)
      ∧ bucket ds.languageDict k =
        fs.filterMap (fun f => if f.languageCode = k then some (languageEntry f) else none)
      ∧ bucket ds.publisherDict k =
        fs.filterMap (fun f => if truthy f.publisherName = true ∧ f.publisherName = k
                               then some (publisherEntry f) else none)
      ∧ bucket ds.licenceDict k =
        fs.filterMap (fun f => if truthy f.licence = true ∧ f.licence = k
                               then some (licenceEntry f) else none)
      ∧ bucket ds.webLinkDict k =
        fs.filterMap (fun f => if truthy f.webLink = true ∧ f.webLink = k
                               then some (webLinkEntry f) else none) := by
  have hds := computeDataSets_ok es fs ds hok hfs
  subst hds
  intro k
  refine ⟨?_, ?_, ?_, ?_, ?_⟩
  · show bucket ((fs.foldl step emptyDataSets).namesDict) k = _
    rw [foldl_step_namesDict,
        bucket_foldl_ddAppend_all (fun f : FieldVals => f.versionName) nameEntry fs
          emptyDataSets.namesDict k]
    rfl
  · show bucket ((fs.foldl step emptyDataSets).languageDict) k = _
    rw [foldl_step_languageDict,
        bucket_foldl_ddAppend_all (fun f : FieldVals => f.languageCode) languageEntry fs
          emptyDataSets.languageDict k]
    rfl
  · show bucket ((fs.foldl step emptyDataSets).publisherDict) k = _
    rw [foldl_step_publisherDict,
        bucket_foldl_ddAppend (fun f : FieldVals => f.publisherName) publisherEntry
          (fun f => truthy f.publisherName) fs emptyDataSets.publisherDict k]
    rfl
  · show bucket ((fs.foldl step emptyDataSets).licenceDict) k = _
    rw [foldl_step_licenceDict,
        bucket_foldl_ddAppend (fun f : FieldVals => f.licence) licenceEntry
          (fun f => truthy f.licence) fs emptyDataSets.licenceDict k]
    rfl
  · show bucket ((fs.foldl step emptyDataSets).webLinkDict) k = _
    rw [foldl_step_webLinkDict,
        bucket_foldl_ddAppend (fun f : FieldVals => f.webLink) webLinkEntry
          (fun f => truthy f.webLink) fs emptyDataSets.webLinkDict k]
    rfl

/-- Witness for `c6_grouped_indices_complete` on the spec's concrete
scenario: `languageIndex["en"]` and `licenceIndex["Public Domain"]` each
hold both records, in document order. -/
theorem c6_witness :
    bucket sampleDataSets.languageDict (some "en")
      = [languageEntry kjvFields, languageEntry webFields]
    ∧ bucket sampleDataSets.licenceDict (some "Public Domain")
      = [licenceEntry kjvFields, licenceEntry webFields] := by
  have h := c6_grouped_indices_complete [kjvElem, webElem] [kjvFields, webFields]
    sampleDataSets rfl rfl
  constructor
  · rw [(h (some "en")).2.1]
    rfl
  · rw [(h (some "Public Domain")).2.2.2.1]
    rfl

/-! ## Claim C1 — a record missing a required field -/

/-- A record missing its compulsory `languageCode` element (and, like every
record of this schema, carrying no `referenceAbbreviation` element). -/
def missingLangElem : XElem := .mk "BibleVersionCodes" [] none none
  [fieldLeaf "mainAbbreviation" (some "KJV"),
   fieldLeaf "versionName" (some "King James Version")]

/-- The catalogue tree holding only `missingLangElem`. -/
def missingLangTree : XElem := .mk "BibleVersionCodes" [] none none [missingLangElem]

/-- **C1 (code bug).** The claim, following the validator's evident intent
(report one FieldError with the record's identifier and index, keep going,
and keep indexing the record by its present fields), fails on the code at
this input: `__validate` computes its record ID through
`element.find("referenceAbbreviation").text`, but the schema declares no
`referenceAbbreviation` element, so validation raises `AttributeError` on
the record before emitting any FieldError; and `importDataToPython`
evaluates `element.find('languageCode').text` unguarded, so the missing
required field likewise raises `AttributeError` and the record reaches no
derived index. -/
theorem c1_missing_required_field_crashes :
    validate missingLangTree =
      .error "AttributeError: NoneType has no attribute text (referenceAbbreviation)"
    ∧ computeDataSets [missingLangElem] =
      .error "AttributeError: NoneType has no attribute text (languageCode)" :=
  ⟨rfl, rfl⟩

/-! ## Claim C2 — duplicate values in a unique field -/

/-- The duplicate-`mainAbbreviation` catalogue tree. -/
def dupTree : XElem := .mk "BibleVersionCodes" [] none none [dupElemA, dupElemB]

/-- `dupElemA` extended with a `referenceAbbreviation` element, letting the
validator get past its ID lookup. -/
def dupIdElemA : XElem := .mk "BibleVersionCodes" [] none none
  (dupElemA.children ++ [fieldLeaf "referenceAbbreviation" (some "IDA")])

/-- `dupElemB` extended with a `referenceAbbreviation` element. -/
def dupIdElemB : XElem := .mk "BibleVersionCodes" [] none none
  (dupElemB.children ++ [fieldLeaf "referenceAbbreviation" (some "IDB")])

/-- The duplicate catalogue tree with `referenceAbbreviation` IDs added. -/
def dupIdTree : XElem := .mk "BibleVersionCodes" [] none none [dupIdElemA, dupIdElemB]

/-- **C2 (code bug).** On two schema-conformant entries sharing a
`mainAbbreviation`, validation does not produce the single
`UniquenessViolation` the claim describes: it aborts with `AttributeError`
at the `referenceAbbreviation` ID lookup on the very first record.  Even on
records artificially carrying a `referenceAbbreviation` element (so the ID
lookup succeeds), exactly one uniqueness diagnostic is emitted but it names
only the repeating record's position (record 1), not both colliding
positions.  The index half of the claim does hold:
`AbbreviationsDict['KJV']` carries the later entry's values. -/
theorem c2_duplicate_abbreviation_crashes :
    validate dupTree =
      .error "AttributeError: NoneType has no attribute text (referenceAbbreviation)"
    ∧ validate dupIdTree = .ok
        [Diag.additionalElement "referenceAbbreviation" (some "IDA") 0,
         Diag.additionalElement "referenceAbbreviation" (some "IDB") 1,
         Diag.uniquenessViolation (some "KJV") "mainAbbreviation" (some "IDB") 1]
    ∧ dictGet? dupDataSets.abbreviationsDict (some "KJV") = some (abbrevEntry dupFieldsB) :=
  ⟨rfl, rfl, rfl⟩

/-! ## Claim C9 — tolerant header handling -/

/-- A catalogue document whose header's `work` block is empty (no `version`
child). -/
def incompleteWorkDoc : XElem := .mk "BibleVersionCodes" [] none none
  [.mk "header" [] none none [.mk "work" [] none none []], kjvElem]

/-- **C9 (counterexample).** The claim says header absence *or
incompleteness* never aborts the load.  A header whose `work` block lacks a
`version` child is an incomplete header, yet `__load` evaluates
`work.find('version').text` unguarded and the load aborts with
`AttributeError`. -/
theorem c9_counterexample :
    load incompleteWorkDoc =
      .error "AttributeError: NoneType has no attribute text (version)" := rfl

/-- An element carrying no text, attributes or tail (so the structural
checkers stay silent). -/
def cleanXElem (e : XElem) : Prop := e.text = none ∧ e.attrs = [] ∧ e.tail = none

/-- **C9 (amended).** Header tolerance as the code implements it: a missing
header block, a header with no children, a header with several children
(`len(header) > 1`), or a mis-tagged sub-block is non-fatal — the load
returns normally with a diagnostic and empty header fields — and a header
with a complete `work` block has its title, version and date extracted; but
a `work` block missing one of its `version`, `date` or `title` children
aborts the load (`c9_counterexample`).  Elements are assumed free of stray
text/attributes/tails so the statement need not enumerate the incidental
structural warnings. -/
theorem c9_amended_header_tolerance (attrs : List (String × String))
    (text tail : Option String) (first : XElem) (rest : List XElem) :
    (first.tag ≠ "header" → first.tail = none →
      load (.mk "BibleVersionCodes" attrs text tail (first :: rest)) =
        .ok (⟨.mk "BibleVersionCodes" attrs text tail (first :: rest),
              some "", some "", some ""⟩, [Diag.missingHeader]))
    ∧ (first.tag = "header" → cleanXElem first → first.children = [] →
      load (.mk "BibleVersionCodes" attrs text tail (first :: rest)) =
        .ok (⟨.mk "BibleVersionCodes" attrs text tail rest,
              some "", some "", some ""⟩, [Diag.missingWorkElement]))
    ∧ (first.tag = "header" → cleanXElem first → 1 < first.children.length →
      load (.mk "BibleVersionCodes" attrs text tail (first :: rest)) =
        .ok (⟨.mk "BibleVersionCodes" attrs text tail rest,
              some "", some "", some ""⟩, [Diag.unexpectedHeaderElements]))
    ∧ (∀ w : XElem, first.tag = "header" → cleanXElem first → first.children = [w] →
      w.tag ≠ "work" → cleanXElem w →
      load (.mk "BibleVersionCodes" attrs text tail (first :: rest)) =
        .ok (⟨.mk "BibleVersionCodes" attrs text tail rest,
              some "", some "", some ""⟩, [Diag.missingWorkElement]))
    ∧ (∀ w vEl dEl tEl : XElem, first.tag = "header" → cleanXElem first →
      first.children = [w] → w.tag = "work" → cleanXElem w →
      findElem w "version" = some vEl → findElem w "date" = some dEl →
      findElem w "title" = some tEl →
      load (.mk "BibleVersionCodes" attrs text tail (first :: rest)) =
        .ok (⟨.mk "BibleVersionCodes" attrs text tail rest,
              tEl.text, vEl.text, dEl.text⟩, [])) := by
  refine ⟨?_, ?_, ?_, ?_, ?_⟩
  · intro htag htail
    cases first with
    | mk ftag fattrs ftext ftail fchildren =>
      simp only [XElem.tag] at htag
      simp only [XElem.tail] at htail
      subst htail
      simp [load, XElem.tag, XElem.children, XElem.tail, XElem.text, XElem.attrs, htag, truthyTrim]
  · intro htag hclean hch
    obtain ⟨ht, ha, htl⟩ := hclean
    cases first with
    | mk ftag fattrs ftext ftail fchildren =>
      simp only [XElem.tag] at htag
      simp only [XElem.text] at ht
      simp only [XElem.attrs] at ha
      simp only [XElem.tail] at htl
      simp only [XElem.children] at hch
      subst htag; subst ht; subst ha; subst htl; subst hch
      simp [load, XElem.tag, XElem.children, XElem.tail, XElem.text, XElem.attrs,
            truthyTrim, checkXMLNoText, checkXMLNoTail, checkXMLNoAttributes]
  · intro htag hclean hlen
    obtain ⟨ht, ha, htl⟩ := hclean
    cases first with
    | mk ftag fattrs ftext ftail fchildren =>
      simp only [XElem.tag] at htag
      simp only [XElem.text] at ht
      simp only [XElem.attrs] at ha
      simp only [XElem.tail] at htl
      simp only [XElem.children] at hlen
      subst htag; subst ht; subst ha; subst htl
      simp [load, XElem.tag, XElem.children, XElem.tail, XElem.text, XElem.attrs,
            truthyTrim, hlen, checkXMLNoText, checkXMLNoTail, checkXMLNoAttributes]
  · intro w htag hclean hch hwtag hwclean
    obtain ⟨ht, ha, htl⟩ := hclean
    obtain ⟨hwt, hwa, hwtl⟩ := hwclean
    cases first with
    | mk ftag fattrs ftext ftail fchildren =>
      simp only [XElem.tag] at htag
      simp only [XElem.text] at ht
      simp only [XElem.attrs] at ha
      simp only [XElem.tail] at htl
      simp only [XElem.children] at hch
      subst htag; subst ht; subst ha; subst htl; subst hch
      cases w with
      | mk wtag wattrs wtext wtail wchildren =>
        simp only [XElem.tag] at hwtag
        simp only [XElem.text] at hwt
        simp only [XElem.attrs] at hwa
        simp only [XElem.tail] at hwtl
        subst hwt; subst hwa; subst hwtl
        simp [load, XElem.tag, XElem.children, XElem.tail, XElem.text, XElem.attrs,
              truthyTrim, hwtag, checkXMLNoText, checkXMLNoTail, checkXMLNoAttributes]
  · intro w vEl dEl tEl htag hclean hch hwtag hwclean hv hd htit
    obtain ⟨ht, ha, htl⟩ := hclean
    obtain ⟨hwt, hwa, hwtl⟩ := hwclean
    cases first with
    | mk ftag fattrs ftext ftail fchildren =>
      simp only [XElem.tag] at htag
      simp only [XElem.text] at ht
      simp only [XElem.attrs] at ha
      simp only [XElem.tail] at htl
      simp only [XElem.children] at hch
      subst htag; subst ht; subst ha; subst htl; subst hch
      cases w with
      | mk wtag wattrs wtext wtail wchildren =>
        simp only [XElem.tag] at hwtag
        simp only [XElem.text] at hwt
        simp only [XElem.attrs] at hwa
        simp only [XElem.tail] at hwtl
        subst hwtag; subst hwt; subst hwa; subst hwtl
        simp [load, XElem.tag, XElem.children, XElem.tail, XElem.text, XElem.attrs,
              truthyTrim, hv, hd, htit,
              checkXMLNoText, checkXMLNoTail, checkXMLNoAttributes]

/-- The complete `work` block of a well-formed header. -/
def workElem : XElem := .mk "work" [] none none
  [fieldLeaf "version" (some "0.01"), fieldLeaf "date" (some "2022-05-18"),
   fieldLeaf "title" (some "Bible version codes")]

/-- A well-formed header block. -/
def headerElem : XElem := .mk "header" [] none none [workElem]

/-- A catalogue document with a complete header. -/
def headeredDoc : XElem := .mk "BibleVersionCodes" [] none none [headerElem, kjvElem]

/-- A catalogue document with no header block at all. -/
def headerlessDoc : XElem := .mk "BibleVersionCodes" [] none none [kjvElem, webElem]

/-- A header block with two children (`len(header) > 1`). -/
def overfullHeaderElem : XElem := .mk "header" [] none none [workElem, workElem]

/-- A catalogue document whose header block has several children. -/
def overfullHeaderDoc : XElem :=
  .mk "BibleVersionCodes" [] none none [overfullHeaderElem, kjvElem]

/-- Witness for `c9_amended_header_tolerance`: the complete header is mined
(and removed from the tree), the missing header only warns, and the
over-full header only logs and leaves the header fields empty. -/
theorem c9_witness :
    load headeredDoc = .ok (⟨.mk "BibleVersionCodes" [] none none [kjvElem],
        some "Bible version codes", some "0.01", some "2022-05-18"⟩, [])
    ∧ load headerlessDoc = .ok (⟨headerlessDoc, some "", some "", some ""⟩,
        [Diag.missingHeader])
    ∧ load overfullHeaderDoc = .ok (⟨.mk "BibleVersionCodes" [] none none [kjvElem],
        some "", some "", some ""⟩, [Diag.unexpectedHeaderElements]) := by
  refine ⟨?_, ?_, ?_⟩
  · exact (c9_amended_header_tolerance [] none none headerElem [kjvElem]).2.2.2.2
      workElem (fieldLeaf "version" (some "0.01")) (fieldLeaf "date" (some "2022-05-18"))
      (fieldLeaf "title" (some "Bible version codes")) rfl ⟨rfl, rfl, rfl⟩ rfl rfl
      ⟨rfl, rfl, rfl⟩ rfl rfl rfl
  · exact (c9_amended_header_tolerance [] none none kjvElem [webElem]).1
      (by decide) rfl
  · exact (c9_amended_header_tolerance [] none none overfullHeaderElem [kjvElem]).2.2.1
      rfl ⟨rfl, rfl, rfl⟩ (by decide)
